import Mathlib

/-!
Verification development for the Rainze `SystemMonitor` component
(`rainze_core/src/system_monitor.rs`).

The monitor wraps a `sysinfo::System` handle behind a mutex and exposes
`get_cpu_usage`, `get_memory_usage`, `is_fullscreen`, `is_meeting_app`
and `refresh`.  We shallowly embed the handle's cached data as the
structure `SysinfoSystem` and each method as an explicit state-passing
function.  A refresh against the OS facility is modelled by an
`Option`-valued input: `some sample` is a successful enumeration
delivering fresh counters, `none` is a facility that cannot enumerate,
in which case the `sysinfo` refresh calls leave the cached counters
unchanged (its API has no error channel).  `f32` arithmetic is modelled
exactly over `ℚ`; `u64` counters over `ℕ`; process names over `String`
with ASCII lowercasing via `Char.toLower`.
-/

namespace Rainze

/-- A CPU sample delivered by the OS facility on a successful
`refresh_cpu_usage`: the value `global_cpu_usage` will report. -/
structure CpuSample where
  usage : ℚ

/-- A memory sample delivered by the OS facility on a successful
`refresh_memory`: the values `total_memory` and `used_memory` will report
(`u64` byte counts). -/
structure MemSample where
  total : ℕ
  used : ℕ

/-- A full sample delivered on a successful `refresh_all`. -/
structure FullSample where
  cpu : CpuSample
  mem : MemSample
  processes : List String

/-- Cached state of the `sysinfo::System` handle owned by `SystemMonitor`
(field `system: Mutex<System>`): the CPU counter, the memory counters and
the enumerated process names. -/
structure SysinfoSystem where
  cpuUsage : ℚ
  totalMemory : ℕ
  usedMemory : ℕ
  processes : List String

/-- `startsWithPat pat hay`: `pat` matches `hay` at its start; the anchored
step of the substring search performed by Rust `str::contains`. -/
def startsWithPat : List Char → List Char → Bool
  | [], _ => true
  | _ :: _, [] => false
  | a :: ps, b :: hs => a == b && startsWithPat ps hs

/-- `containsPat pat hay`: `pat` occurs contiguously inside `hay`; models
Rust `str::contains` as used in `is_meeting_app`. -/
def containsPat (pat : List Char) : List Char → Bool
  | [] => pat.isEmpty
  | b :: hs => startsWithPat pat (b :: hs) || containsPat pat hs

/-- Rust `str::to_lowercase` restricted to the ASCII names the monitor
compares (`Char.toLower` lowercases exactly the ASCII uppercase letters). -/
def to_lowercase (s : String) : String :=
  String.mk (s.data.map Char.toLower)

/-- The fixed meeting-app signature list from `is_meeting_app`. -/
def meeting_apps : List String :=
  ["zoom", "teams", "wemeetapp", "dingtalk", "feishu", "webex", "slack"]

namespace SystemMonitor

/-- `sys.refresh_cpu_usage()`: on a successful enumeration the cached CPU
counter is overwritten; if the facility cannot enumerate, `sysinfo` keeps
the previous cached value. -/
def refresh_cpu_usage (s : SysinfoSystem) : Option CpuSample → SysinfoSystem
  | some c => { s with cpuUsage := c.usage }
  | none => s

/-- `sys.refresh_memory()`: counterpart of `refresh_cpu_usage` for the two
memory counters. -/
def refresh_memory (s : SysinfoSystem) : Option MemSample → SysinfoSystem
  | some m => { s with totalMemory := m.total, usedMemory := m.used }
  | none => s

/-- `sys.refresh_processes(ProcessesToUpdate::All, true)`: replaces the
cached process list on success, keeps it if enumeration fails. -/
def refresh_processes (s : SysinfoSystem) : Option (List String) → SysinfoSystem
  | some ps => { s with processes := ps }
  | none => s

/-- `SystemMonitor::get_cpu_usage`: lock, `refresh_cpu_usage`, return
`global_cpu_usage` (the refreshed cached CPU counter). -/
def get_cpu_usage (s : SysinfoSystem) (i : Option CpuSample) : ℚ × SysinfoSystem :=
  let s' := refresh_cpu_usage s i
  (s'.cpuUsage, s')

/-- The value computation inside `SystemMonitor::get_memory_usage`:
`if total > 0.0 { (used / total) * 100.0 } else { 0.0 }`. -/
def memory_percentage (total used : ℕ) : ℚ :=
  if (total : ℚ) > 0 then ((used : ℚ) / (total : ℚ)) * 100 else 0

/-- `SystemMonitor::get_memory_usage`: lock, `refresh_memory`, read
`total_memory` and `used_memory`, then branch on `total > 0.0`. -/
def get_memory_usage (s : SysinfoSystem) (i : Option MemSample) : ℚ × SysinfoSystem :=
  let s' := refresh_memory s i
  (memory_percentage s'.totalMemory s'.usedMemory, s')

/-- `SystemMonitor::is_fullscreen`: the body is the literal `false`; it
takes `&self`, never locks the handle and never refreshes, so the state
passes through untouched. -/
def is_fullscreen (s : SysinfoSystem) : Bool × SysinfoSystem :=
  (false, s)

/-- The per-process test inside `is_meeting_app`'s outer loop: lowercase
the name, then scan the signature list for a substring hit. -/
def process_is_meeting (name : String) : Bool :=
  meeting_apps.any fun app => containsPat app.data (to_lowercase name).data

/-- `SystemMonitor::is_meeting_app`: lock, `refresh_processes`, then return
on the first process whose lowercased name contains a signature
(`List.any` over the refreshed process list). -/
def is_meeting_app (s : SysinfoSystem) (i : Option (List String)) : Bool × SysinfoSystem :=
  let s' := refresh_processes s i
  (s'.processes.any process_is_meeting, s')

/-- `SystemMonitor::refresh`: lock, `refresh_all`. -/
def refresh (s : SysinfoSystem) : Option FullSample → SysinfoSystem
  | some f =>
    { cpuUsage := f.cpu.usage, totalMemory := f.mem.total
      usedMemory := f.mem.used, processes := f.processes }
  | none => s

end SystemMonitor

/-! ### Correctness of the substring matcher -/

theorem startsWithPat_iff : ∀ (pat hay : List Char),
    startsWithPat pat hay = true ↔ ∃ t, hay = pat ++ t
  | [], hay => by simp [startsWithPat]
  | a :: ps, [] => by simp [startsWithPat]
  | a :: ps, b :: hs => by
    simp only [startsWithPat, Bool.and_eq_true, beq_iff_eq,
      startsWithPat_iff ps hs, List.cons_append, List.cons.injEq]
    constructor
    · rintro ⟨rfl, t, rfl⟩
      exact ⟨t, rfl, rfl⟩
    · rintro ⟨t, rfl, rfl⟩
      exact ⟨rfl, t, rfl⟩

theorem containsPat_iff : ∀ (pat hay : List Char),
    containsPat pat hay = true ↔ ∃ pre post, hay = pre ++ pat ++ post
  | pat, [] => by
    cases pat with
    | nil =>
      simp only [containsPat, List.isEmpty]
      constructor
      · intro _
        exact ⟨[], [], rfl⟩
      · intro _
        trivial
    | cons a ps =>
      simp only [containsPat, List.isEmpty, Bool.false_eq_true, false_iff]
      rintro ⟨pre, post, h⟩
      rcases List.append_eq_nil.mp h.symm with ⟨h1, -⟩
      rcases List.append_eq_nil.mp h1 with ⟨-, h3⟩
      exact absurd h3 (List.cons_ne_nil a ps)
  | pat, b :: hs => by
    simp only [containsPat, Bool.or_eq_true, startsWithPat_iff,
      containsPat_iff pat hs]
    constructor
    · rintro (⟨t, ht⟩ | ⟨pre, post, h⟩)
      · exact ⟨[], t, ht⟩
      · exact ⟨b :: pre, post, by simp [h]⟩
    · rintro ⟨pre, post, h⟩
      cases pre with
      | nil => exact Or.inl ⟨post, h⟩
      | cons c pre =>
        simp only [List.cons_append] at h
        injection h with h1 h2
        exact Or.inr ⟨pre, post, h2⟩

/-! ### Range of the memory percentage -/

theorem memory_percentage_range (total used : ℕ) (h : used ≤ total) :
    0 ≤ SystemMonitor.memory_percentage total used ∧
      SystemMonitor.memory_percentage total used ≤ 100 := by
  unfold SystemMonitor.memory_percentage
  by_cases h0 : (total : ℚ) > 0
  · rw [if_pos h0]
    refine ⟨by positivity, ?_⟩
    have h1 : (used : ℚ) ≤ (total : ℚ) := by exact_mod_cast h
    calc (used : ℚ) / (total : ℚ) * 100 ≤ 1 * 100 := by
          exact mul_le_mul_of_nonneg_right ((div_le_one h0).mpr h1) (by norm_num)
      _ = 100 := by norm_num
  · rw [if_neg h0]
    norm_num

end Rainze

namespace Rainze

open SystemMonitor

/-- C1: after a successful memory refresh reporting `m`, `get_memory_usage`
returns `used / total * 100` when the reported total is positive and exactly
`0` when the reported total is `0` — a defined value, not an error and not a
division. -/
theorem get_memory_usage_spec (s : SysinfoSystem) (m : MemSample) :
    (m.total = 0 → (get_memory_usage s (some m)).1 = 0) ∧
      (0 < m.total →
        (get_memory_usage s (some m)).1 = (m.used : ℚ) / (m.total : ℚ) * 100) := by
  constructor
  · intro h
    simp [get_memory_usage, refresh_memory, memory_percentage, h]
  · intro h
    have hq : (0 : ℚ) < (m.total : ℚ) := by exact_mod_cast h
    simp [get_memory_usage, refresh_memory, memory_percentage, hq]

/-- Witness for C1 at total `0` (used `7`) and at total `4`, used `1`. -/
theorem get_memory_usage_spec_witness :
    (0 = 0 ∧ (get_memory_usage ⟨0, 0, 0, []⟩ (some ⟨0, 7⟩)).1 = 0) ∧
      (0 < 4 ∧
        (get_memory_usage ⟨0, 0, 0, []⟩ (some ⟨4, 1⟩)).1 =
          ((1 : ℕ) : ℚ) / ((4 : ℕ) : ℚ) * 100) :=
  ⟨⟨rfl, (get_memory_usage_spec ⟨0, 0, 0, []⟩ ⟨0, 7⟩).1 rfl⟩,
    ⟨by norm_num, (get_memory_usage_spec ⟨0, 0, 0, []⟩ ⟨4, 1⟩).2 (by norm_num)⟩⟩

/-- C2 counterexample: the monitor passes facility values through without
clamping, so a facility state reporting a CPU usage of `150` makes
`get_cpu_usage` return `150 > 100`, and one reporting `used = 200` with
`total = 100` makes `get_memory_usage` return `200 > 100`. -/
theorem usage_range_counterexample :
    (get_cpu_usage ⟨0, 0, 0, []⟩ (some ⟨150⟩)).1 = 150 ∧
      ¬ (get_cpu_usage ⟨0, 0, 0, []⟩ (some ⟨150⟩)).1 ≤ 100 ∧
      (get_memory_usage ⟨0, 0, 0, []⟩ (some ⟨100, 200⟩)).1 = 200 ∧
      ¬ (get_memory_usage ⟨0, 0, 0, []⟩ (some ⟨100, 200⟩)).1 ≤ 100 := by
  have hm : (get_memory_usage ⟨0, 0, 0, []⟩ (some ⟨100, 200⟩)).1 = 200 := by
    norm_num [get_memory_usage, refresh_memory, memory_percentage]
  refine ⟨rfl, ?_, hm, ?_⟩
  · show ¬ (150 : ℚ) ≤ 100
    norm_num
  · rw [hm]
    norm_num

/-- C2 (amended): if the facility sample respects the facility contract —
CPU usage within `[0, 100]` and used memory at most total memory — then the
values returned by `get_cpu_usage` and `get_memory_usage` lie in `[0, 100]`. -/
theorem usage_in_range (s : SysinfoSystem) (c : CpuSample) (m : MemSample)
    (hc0 : 0 ≤ c.usage) (hc1 : c.usage ≤ 100) (hm : m.used ≤ m.total) :
    (0 ≤ (get_cpu_usage s (some c)).1 ∧ (get_cpu_usage s (some c)).1 ≤ 100) ∧
      (0 ≤ (get_memory_usage s (some m)).1 ∧
        (get_memory_usage s (some m)).1 ≤ 100) := by
  refine ⟨⟨hc0, hc1⟩, ?_⟩
  exact memory_percentage_range m.total m.used hm

/-- Witness for C2 (amended) at a CPU sample of `50` and a memory sample
`used = 2`, `total = 8`. -/
theorem usage_in_range_witness :
    (0 : ℚ) ≤ 50 ∧ (50 : ℚ) ≤ 100 ∧ 2 ≤ 8 ∧
      ((0 ≤ (get_cpu_usage ⟨0, 0, 0, []⟩ (some ⟨50⟩)).1 ∧
          (get_cpu_usage ⟨0, 0, 0, []⟩ (some ⟨50⟩)).1 ≤ 100) ∧
        (0 ≤ (get_memory_usage ⟨0, 0, 0, []⟩ (some ⟨8, 2⟩)).1 ∧
          (get_memory_usage ⟨0, 0, 0, []⟩ (some ⟨8, 2⟩)).1 ≤ 100)) :=
  ⟨by norm_num, by norm_num, by norm_num,
    usage_in_range ⟨0, 0, 0, []⟩ ⟨50⟩ ⟨8, 2⟩ (by norm_num) (by norm_num)
      (by norm_num)⟩

/-- C3: after a successful process refresh, `is_meeting_app` returns `true`
iff some process name, once lowercased, contains one of the seven fixed
meeting-app signatures as a contiguous substring. -/
theorem is_meeting_app_iff (s : SysinfoSystem) (procs : List String) :
    (is_meeting_app s (some procs)).1 = true ↔
      ∃ p ∈ procs, ∃ app ∈ meeting_apps, ∃ pre post : List Char,
        (to_lowercase p).data = pre ++ app.data ++ post := by
  simp only [is_meeting_app, refresh_processes, process_is_meeting,
    List.any_eq_true, containsPat_iff]

/-- C4: `is_fullscreen` returns the constant `false` in every monitor
state, regardless of any display state — a defined degraded result. -/
theorem is_fullscreen_false (s : SysinfoSystem) :
    (is_fullscreen s).1 = false := rfl

/-- C5 counterexample: when the facility cannot enumerate (refresh input
`none`), `get_cpu_usage` completes and returns the stale cached value `37`,
and `is_meeting_app` answers from the stale cached process list; no
operation has an error outcome — no `QueryError` exists in the code. -/
theorem query_error_counterexample :
    (get_cpu_usage ⟨37, 100, 50, []⟩ none).1 = 37 ∧
      (is_meeting_app ⟨37, 100, 50, ["zoom"]⟩ none).1 = true := by
  exact ⟨rfl, by decide⟩

/-- C5 (amended): every read and refresh operation is infallible — its
result type has no error alternative; when the facility cannot enumerate,
each operation keeps the cached state and returns the value computed from
that (possibly stale) state, with zero-total memory still yielding `0`. -/
theorem operations_infallible (s : SysinfoSystem) :
    get_cpu_usage s none = (s.cpuUsage, s) ∧
      get_memory_usage s none =
        (memory_percentage s.totalMemory s.usedMemory, s) ∧
      is_meeting_app s none = (s.processes.any process_is_meeting, s) ∧
      refresh s none = s :=
  ⟨rfl, rfl, rfl, rfl⟩

/-- C6: `get_cpu_usage` refreshes only the CPU counter — for every prior
state and every refresh outcome, the cached memory counters and the cached
process list are unchanged afterwards. -/
theorem get_cpu_usage_frame (s : SysinfoSystem) (i : Option CpuSample) :
    ((get_cpu_usage s i).2).totalMemory = s.totalMemory ∧
      ((get_cpu_usage s i).2).usedMemory = s.usedMemory ∧
      ((get_cpu_usage s i).2).processes = s.processes := by
  cases i <;> exact ⟨rfl, rfl, rfl⟩

/-- C7: a process list containing only `"zoomcast_helper"` makes
`is_meeting_app` return `true` — the substring heuristic's false positive
is defined behavior. -/
theorem zoomcast_false_positive :
    (is_meeting_app ⟨0, 0, 0, []⟩ (some ["zoomcast_helper"])).1 = true := by
  decide

/-- C9: the boolean result of `is_meeting_app` does not depend on the
enumeration order of the process list: permuted lists give equal results. -/
theorem is_meeting_app_perm (s : SysinfoSystem) (l₁ l₂ : List String)
    (h : List.Perm l₁ l₂) :
    (is_meeting_app s (some l₁)).1 = (is_meeting_app s (some l₂)).1 := by
  simp only [is_meeting_app, refresh_processes]
  rw [Bool.eq_iff_iff]
  simp only [List.any_eq_true]
  constructor
  · rintro ⟨x, hx, hp⟩
    exact ⟨x, h.mem_iff.mp hx, hp⟩
  · rintro ⟨x, hx, hp⟩
    exact ⟨x, h.mem_iff.mpr hx, hp⟩

/-- Witness for C9 on the swapped lists `["bash", "zoom"]` and
`["zoom", "bash"]`. -/
theorem is_meeting_app_perm_witness :
    List.Perm ["bash", "zoom"] ["zoom", "bash"] ∧
      (is_meeting_app ⟨0, 0, 0, []⟩ (some ["bash", "zoom"])).1 =
        (is_meeting_app ⟨0, 0, 0, []⟩ (some ["zoom", "bash"])).1 :=
  ⟨List.Perm.swap "zoom" "bash" [],
    is_meeting_app_perm ⟨0, 0, 0, []⟩ ["bash", "zoom"] ["zoom", "bash"]
      (List.Perm.swap "zoom" "bash" [])⟩

/-- C10: `is_fullscreen` performs no side effect: it triggers no refresh
and leaves the CPU counter, both memory counters and the process list — the
whole cached state — unchanged. -/
theorem is_fullscreen_frame (s : SysinfoSystem) :
    ((is_fullscreen s).2).cpuUsage = s.cpuUsage ∧
      ((is_fullscreen s).2).totalMemory = s.totalMemory ∧
      ((is_fullscreen s).2).usedMemory = s.usedMemory ∧
      ((is_fullscreen s).2).processes = s.processes ∧
      (is_fullscreen s).2 = s :=
  ⟨rfl, rfl, rfl, rfl, rfl⟩

end Rainze
